import Mathlib

/-
Verification of the F&O stocks news dashboard (FnO.py).

The script's news pipeline is embedded shallowly:
  - `period_to_gnews_period` mirrors the helper of the same name;
  - `RawItem` models a raw gnews record (a dict read through `.get`, so
    every field is an `Option String`);
  - `normalizeItem` mirrors the per-record normalization loop inside
    `fetch_news_for_stock` (lines 57-78), with the external
    `dateutil.parser.parse(...).isoformat()` call abstracted as a
    `parse : String -> Option String` parameter (`none` = the parse raised);
  - `fetch_news_for_stock` mirrors the function of the same name: the
    external `GNews.get_news` call (and any exception raised inside the
    `try` block) is abstracted as an `Except String (List RawItem)` input,
    `Except.error e` meaning the block raised with message `e`;
  - the Fetch News button handler (lines 114-158) is embedded as
    `accumArticles` (the accumulation loop), `filterErrors` (the
    `~df["title"].str.startswith("ERROR:", na=False)` row filter),
    `dedupStep` (the `drop_duplicates` block: by `url` when any url is
    non-null, else by `title`, keeping first occurrences, with pandas
    treating missing key values as equal), `handlerTrace` (the progress
    reporting of the loop) and a sort step.
  - `pd.to_datetime(..., utc=True, errors="coerce")` is abstracted as a
    `toDT : String -> Option Int` timestamp parse (`none` = NaT).
    `df.sort_values(by=..., ascending=False)` uses the default
    kind='quicksort', which pandas documents as NOT stable, so the sorted
    output is embedded as a relation `PandasSortResult`: any permutation of
    the input that is ordered descending by key with NaT keys placed last
    (the documented contract of the call).
  - `toCsvString` / `toCsvBytes` mirror `df.to_csv(index=False).encode("utf-8")`
    with the DataFrame's column order (the dict insertion order of the
    records built in `fetch_news_for_stock`), `QUOTE_MINIMAL` quoting
    and `\n` line terminator; `parseCsvString` is a specification-side
    standard-CSV reader used to state that the export is a faithful,
    parseable rendering.
-/

/-- Canonical article record as assembled in `fetch_news_for_stock`
(FnO.py lines 71-78): keys stock, title, url, publisher, published,
description, in that order; all but stock may be `None`. -/
structure Article where
  stock : String
  title : Option String
  url : Option String
  publisher : Option String
  published : Option String
  description : Option String
  deriving DecidableEq

/-- A raw gnews record: a dict accessed via `.get`, so each field is
optional. Only the keys read by FnO.py are modelled. -/
structure RawItem where
  title : Option String
  url : Option String
  publisher : Option String
  description : Option String
  published_date : Option String
  published : Option String
  deriving DecidableEq

/-- The static F&O stock list (FnO.py lines 18-28). -/
def FNO_STOCKS : List String :=
  ["Reliance Industries", "TCS", "Infosys", "HDFC Bank", "ICICI Bank",
   "Kotak Mahindra Bank", "State Bank of India", "Bharti Airtel",
   "Hindustan Unilever", "Axis Bank", "ITC", "Larsen & Toubro",
   "Wipro", "Bajaj Finance", "HCL Technologies", "ONGC", "NTPC",
   "Tata Steel", "Maruti Suzuki", "Tech Mahindra", "Adani Enterprises",
   "Tata Motors", "Power Grid Corporation", "IndusInd Bank",
   "UltraTech Cement", "Sun Pharma", "Grasim Industries", "JSW Steel",
   "BPCL", "Coal India", "Eicher Motors", "HDFC Life", "SBI Life",
   "Dr Reddy's Laboratories"]

/-- `period_to_gnews_period` (FnO.py lines 33-40):
`mapping.get(period_label, "1m")`. -/
def period_to_gnews_period (period_label : String) : String :=
  if period_label = "1 Month" then "1m"
  else if period_label = "3 Months" then "3m"
  else if period_label = "6 Months" then "6m"
  else "1m"

/-- Python `a or b` on optional strings: `None` and `""` are falsy. -/
def pyOr (a b : Option String) : Option String :=
  match a with
  | none => b
  | some s => if s = "" then b else some s

/-- The published-date normalization of FnO.py lines 60-69: a falsy value
becomes `None`; a truthy string is passed to `dateutil.parser.parse` and
rendered with `.isoformat()` (the abstract `parse`); if that raises, the
original string is kept verbatim. -/
def normPublished (parse : String → Option String) (published : Option String) : Option String :=
  match published with
  | none => none
  | some s =>
      if s = "" then none
      else
        match parse s with
        | some iso => some iso
        | none => some s

/-- The per-record normalization of the loop body (FnO.py lines 57-78). -/
def normalizeItem (parse : String → Option String) (stock : String) (item : RawItem) : Article :=
  { stock := stock
    title := item.title
    url := item.url
    publisher := item.publisher
    published := normPublished parse (pyOr item.published_date item.published)
    description := item.description }

/-- `fetch_news_for_stock` (FnO.py lines 43-83). The backend interaction
(`GNews(...)` configured with `period_to_gnews_period period_label` and
`max_results`, then `get_news`) is the `backend` input; `Except.error e`
models any exception escaping the `try` block, which the function turns
into the single ERROR-titled sentinel record of line 83. The
`@st.cache_data` memoization only caches results per argument tuple and
does not change the value computed. -/
def fetch_news_for_stock (parse : String → Option String) (stock period_label : String)
    (max_results : Nat) (backend : Except String (List RawItem)) : List Article :=
  let _gnews_period := period_to_gnews_period period_label
  match backend with
  | Except.ok raw => raw.map (normalizeItem parse stock)
  | Except.error e =>
      [{ stock := stock, title := some ("ERROR: " ++ e), url := some "",
         publisher := some "", published := some "", description := some "" }]

/-- Whether a row is dropped by
`df["title"].str.startswith("ERROR:", na=False)` (FnO.py line 138):
a missing title counts as not-ERROR (`na=False`). -/
def titleIsErr (a : Article) : Bool :=
  match a.title with
  | some t => List.isPrefixOf "ERROR:".data t.data
  | none => false

/-- The error-placeholder row filter of FnO.py line 138. -/
def filterErrors (l : List Article) : List Article :=
  l.filter (fun a => !titleIsErr a)

/-- `drop_duplicates(subset=[key], keep="first")`: scan in order, keep a
row iff its key value (with `None = None`, as pandas hashes missing
values equal) has not been seen. -/
def dropDupAux (key : Article → Option String) : List (Option String) → List Article → List Article
  | _, [] => []
  | seen, x :: xs =>
      if key x ∈ seen then dropDupAux key seen xs
      else x :: dropDupAux key (key x :: seen) xs

/-- `drop_duplicates` with an empty seen-set. -/
def dropDuplicates (key : Article → Option String) (l : List Article) : List Article :=
  dropDupAux key [] l

/-- The dedup block (FnO.py lines 140-143): by `url` when
`df["url"].notnull().any()`, else by `title`. -/
def dedupStep (l : List Article) : List Article :=
  if l.any (fun a => !a.url.isNone) then dropDuplicates (fun a => a.url) l
  else dropDuplicates (fun a => a.title) l

/-- The accumulation loop of the Fetch News handler (FnO.py lines
120-126): `all_results.extend(fetch_news_for_stock(stock, ...))` over the
selection, in order. `f` gives each stock's backend outcome for the run
(the period and max_results are fixed for the whole run). -/
def accumArticles (parse : String → Option String) (period_label : String) (max_results : Nat)
    (f : String → Except String (List RawItem)) : List String → List Article
  | [] => []
  | s :: rest =>
      fetch_news_for_stock parse s period_label max_results (f s)
        ++ accumArticles parse period_label max_results f rest

/-- The displayed/exported rows before the sort step: error placeholders
filtered, then deduplicated (FnO.py lines 138-143). When the accumulation
is empty the handler shows "No news found" and renders no rows, which
coincides with the `[]` this general path produces. -/
def resultArticles (parse : String → Option String) (period_label : String) (max_results : Nat)
    (selected : List String) (f : String → Except String (List RawItem)) : List Article :=
  dedupStep (filterErrors (accumArticles parse period_label max_results f selected))

/-- Sort key of FnO.py line 147: `pd.to_datetime(df["published"], utc=True,
errors="coerce")`; a missing `published` is NaT (`none`), an unparseable
one is coerced to NaT. -/
def sortKey (toDT : String → Option Int) (a : Article) : Option Int :=
  a.published.bind toDT

/-- Adjacent-order admissibility for `sort_values(ascending=False)` with
`na_position='last'` (the default): timestamps descending, NaT after
every valid timestamp. -/
def keyGE : Option Int → Option Int → Bool
  | _, none => true
  | none, some _ => false
  | some x, some y => decide (y ≤ x)

/-- The contract of `df.sort_values(by="published_parsed", ascending=False)`
(FnO.py line 148) with the default kind='quicksort', which pandas
documents as not stable: the output is SOME permutation of the input that
is descending by `sortKey` with NaT keys last. Tie order among equal
valid keys is not specified by the call. -/
abbrev PandasSortResult (toDT : String → Option Int) (input out : List Article) : Prop :=
  List.Perm input out
    ∧ List.Pairwise (fun a b => keyGE (sortKey toDT a) (sortKey toDT b) = true) out

/-- A possible final displayed/exported table of one aggregation run:
the sorted rendering of `resultArticles`. -/
abbrev DisplayedResult (parse : String → Option String) (toDT : String → Option Int)
    (period_label : String) (max_results : Nat) (selected : List String)
    (f : String → Except String (List RawItem)) (out : List Article) : Prop :=
  PandasSortResult toDT (resultArticles parse period_label max_results selected f) out

/-- `int(((idx + 1) / total) * 100)` of FnO.py line 127, modelled with
exact rational arithmetic (the float value truncates to the same integer
for the magnitudes reachable here). -/
def progressPercent (k n : Nat) : Nat := 100 * k / n

/-- Observable UI events of the fetch loop: a stock's fetch completing,
and a progress-bar notification. -/
inductive UiEvent where
  | fetchDone (stock : String) (items : List Article)
  | progressed (pct : Nat)
  deriving DecidableEq

/-- The fetch loop of FnO.py lines 122-127 as an event trace: for each
selected stock, in order, its fetch completes and then the progress bar
is notified once with `int(((idx + 1) / total) * 100)`. -/
def traceAux (parse : String → Option String) (period_label : String) (max_results N : Nat)
    (f : String → Except String (List RawItem)) : Nat → List String → List UiEvent
  | _, [] => []
  | i, s :: rest =>
      UiEvent.fetchDone s (fetch_news_for_stock parse s period_label max_results (f s))
        :: UiEvent.progressed (progressPercent (i + 1) N)
        :: traceAux parse period_label max_results N f (i + 1) rest

/-- The whole run's event trace (`total = len(selected)`). -/
def handlerTrace (parse : String → Option String) (period_label : String) (max_results : Nat)
    (selected : List String) (f : String → Except String (List RawItem)) : List UiEvent :=
  traceAux parse period_label max_results selected.length f 0 selected

/-- A character that forces `QUOTE_MINIMAL` quoting: the delimiter, the
quote char, or a line-break character. -/
def specialChar (c : Char) : Bool :=
  decide (c = ',' ∨ c = '"' ∨ c = '\n' ∨ c = '\r')

/-- Double every embedded quote (the `doublequote=True` escaping). -/
def escQuotes : List Char → List Char
  | [] => []
  | c :: r => if c = '"' then '"' :: '"' :: escQuotes r else c :: escQuotes r

/-- Render one CSV field with `QUOTE_MINIMAL` quoting. -/
def escFieldChars (f : List Char) : List Char :=
  if f.any specialChar then '"' :: (escQuotes f ++ ['"']) else f

/-- One CSV record: fields joined by the comma delimiter. -/
def lineChars : List (List Char) → List Char
  | [] => []
  | [f] => escFieldChars f
  | f :: g :: t => escFieldChars f ++ ',' :: lineChars (g :: t)

/-- A CSV document: each record terminated by the `\n` line terminator
that `to_csv` uses when returning a string. -/
def csvChars : List (List (List Char)) → List Char
  | [] => []
  | row :: rows => lineChars row ++ '\n' :: csvChars rows

/-- `to_csv` renders a missing value as the empty field (`na_rep=''`). -/
def fieldStr (o : Option String) : String := o.getD ""

/-- One data row of `df.to_csv(index=False)` (FnO.py line 157): the
DataFrame's columns in their insertion order, which is the key order of
the record dicts built in `fetch_news_for_stock` (lines 71-78 and 83):
stock, title, url, publisher, published, description. -/
def csvFields (a : Article) : List String :=
  [a.stock, fieldStr a.title, fieldStr a.url, fieldStr a.publisher,
   fieldStr a.published, fieldStr a.description]

/-- The header row written by `to_csv`: the DataFrame's column labels. -/
def csvHeader : List String :=
  ["stock", "title", "url", "publisher", "published", "description"]

/-- The rows of the exported CSV, as character lists. -/
def csvRows (rs : List Article) : List (List (List Char)) :=
  (csvHeader :: rs.map csvFields).map (fun row => row.map String.data)

/-- `df.to_csv(index=False)` on the displayed rows. -/
def toCsvString (rs : List Article) : String :=
  String.mk (csvChars (csvRows rs))

/-- `...encode("utf-8")`: the bytes handed to the download button. -/
def toCsvBytes (rs : List Article) : ByteArray :=
  (toCsvString rs).toUTF8

/-- State of the specification-side CSV reader. -/
inductive CsvMode where
  | plain
  | quoted
  | closed
  deriving DecidableEq

/-- Specification-side standard-CSV reader (RFC-4180 style, strict:
every record `\n`-terminated, quotes only at field boundaries, embedded
quotes doubled). Used to state that the export is a lossless rendering;
not part of the embedded program. -/
def csvRun : List Char → CsvMode → List Char → List (List Char) →
    List (List (List Char)) → Option (List (List (List Char)))
  | [], CsvMode.plain, acc, cur, recs =>
      if acc = [] ∧ cur = [] then some recs.reverse else none
  | [], CsvMode.quoted, _, _, _ => none
  | [], CsvMode.closed, _, _, _ => none
  | c :: rest, CsvMode.plain, acc, cur, recs =>
      if c = ',' then csvRun rest CsvMode.plain [] (acc.reverse :: cur) recs
      else if c = '\n' then csvRun rest CsvMode.plain [] [] ((acc.reverse :: cur).reverse :: recs)
      else if c = '"' then
        (if acc = [] then csvRun rest CsvMode.quoted [] cur recs else none)
      else csvRun rest CsvMode.plain (c :: acc) cur recs
  | c :: rest, CsvMode.quoted, acc, cur, recs =>
      if c = '"' then csvRun rest CsvMode.closed acc cur recs
      else csvRun rest CsvMode.quoted (c :: acc) cur recs
  | c :: rest, CsvMode.closed, acc, cur, recs =>
      if c = '"' then csvRun rest CsvMode.quoted ('"' :: acc) cur recs
      else if c = ',' then csvRun rest CsvMode.plain [] (acc.reverse :: cur) recs
      else if c = '\n' then csvRun rest CsvMode.plain [] [] ((acc.reverse :: cur).reverse :: recs)
      else none

/-- Parse a whole CSV document. -/
def parseCsvString (s : String) : Option (List (List (List Char))) :=
  csvRun s.data CsvMode.plain [] [] []

/-- A sample instance of the abstract `dateutil` parse used by concrete
witnesses: it parses the two date formats exercised by them (rendering
`parser.parse(s).isoformat()`) and fails on everything else, as
`dateutil` raises on strings like "N/A" or "". -/
def sampleDateParse : String → Option String := fun s =>
  if s = "March 5, 2024" then some "2024-03-05T00:00:00"
  else if s = "Tue, 05 Mar 2024 08:30:00 GMT" then some "2024-03-05T08:30:00+00:00"
  else none

/-- A sample instance of the abstract `pd.to_datetime` timestamp parse
used by concrete witnesses. -/
def sampleToDT : String → Option Int := fun s =>
  if s = "2024-03-05T00:00:00" then some 1709596800
  else if s = "2024-03-04T00:00:00" then some 1709510400
  else none

/-- Trivial parse instances for witnesses that do not exercise dates. -/
def noParse : String → Option String := fun _ => none

/-- Trivial timestamp-parse instance for witnesses. -/
def noDT : String → Option Int := fun _ => none

/-- Concrete raw record used by witnesses (parseable date). -/
def rawTieA : RawItem :=
  { title := some "tie one", url := some "https://news.example/p", publisher := some "PaperA",
    description := none, published_date := some "March 5, 2024", published := none }

/-- Concrete raw record used by witnesses: same published date as
`rawTieA`, different url and title. -/
def rawTieB : RawItem :=
  { title := some "tie two", url := some "https://news.example/q", publisher := some "PaperA",
    description := none, published_date := some "March 5, 2024", published := none }

/-- `rawTieA` after normalization with `sampleDateParse`. -/
def artTieA : Article :=
  { stock := "TCS", title := some "tie one", url := some "https://news.example/p",
    publisher := some "PaperA", published := some "2024-03-05T00:00:00", description := none }

/-- `rawTieB` after normalization with `sampleDateParse`. -/
def artTieB : Article :=
  { stock := "TCS", title := some "tie two", url := some "https://news.example/q",
    publisher := some "PaperA", published := some "2024-03-05T00:00:00", description := none }

/-- Backend behavior used by witnesses: every stock yields the two
tie-dated records. -/
def fTie : String → Except String (List RawItem) := fun _ => Except.ok [rawTieA, rawTieB]

/-- Backend behavior for the failure-isolation witness: Infosys raises,
other stocks succeed. -/
def fBoom : String → Except String (List RawItem) := fun s =>
  if s = "Infosys" then Except.error "boom" else Except.ok [rawTieA]

/-- Article with a url, used by dedup witnesses. -/
def artUrlC : Article :=
  { stock := "Infosys", title := some "headline three", url := some "https://news.example/c",
    publisher := none, published := none, description := none }

/-- Article sharing `artTieA`'s url but with a different title. -/
def artDupA : Article :=
  { stock := "Wipro", title := some "other headline", url := some "https://news.example/p",
    publisher := none, published := none, description := none }

/-- Url-less article, used by dedup witnesses. -/
def artNoUrl1 : Article :=
  { stock := "TCS", title := some "no url one", url := none,
    publisher := none, published := none, description := none }

/-- A second, distinct url-less article. -/
def artNoUrl2 : Article :=
  { stock := "TCS", title := some "no url two", url := none,
    publisher := none, published := none, description := none }

/-- Raw record whose source-provided published date is the empty string. -/
def emptyDateItem : RawItem :=
  { title := some "headline", url := some "https://news.example/x", publisher := some "PaperA",
    description := some "d", published_date := some "", published := none }

/-- Raw record with a parseable published date. -/
def marchItem : RawItem :=
  { title := some "headline", url := some "https://news.example/x", publisher := some "PaperA",
    description := some "d", published_date := some "March 5, 2024", published := none }

/-- Raw record with an unparseable, non-empty published date. -/
def naItem : RawItem :=
  { title := some "headline", url := some "https://news.example/x", publisher := some "PaperA",
    description := some "d", published_date := some "N/A", published := none }

/- ===================== Theorems ===================== -/

/-- The sentinel title `"ERROR: " ++ e` always starts with the marker
the row filter looks for. -/
theorem error_title_marker (e : String) :
    List.isPrefixOf "ERROR:".data ("ERROR: " ++ e).data = true := by
  cases e with
  | mk l =>
    show List.isPrefixOf ['E', 'R', 'R', 'O', 'R', ':']
      (['E', 'R', 'R', 'O', 'R', ':', ' '] ++ l) = true
    simp [List.isPrefixOf_iff_prefix]

/-- Claim C7: `period_to_gnews_period` maps exactly "1 Month" to "1m",
"3 Months" to "3m" and "6 Months" to "6m", and for every other input it
does not fail but silently returns the 1-month token "1m". -/
theorem c7_period_resolution :
    period_to_gnews_period "1 Month" = "1m"
      ∧ period_to_gnews_period "3 Months" = "3m"
      ∧ period_to_gnews_period "6 Months" = "6m"
      ∧ ∀ s : String, s ≠ "1 Month" → s ≠ "3 Months" → s ≠ "6 Months" →
          period_to_gnews_period s = "1m" := by
  refine ⟨by decide, by decide, by decide, ?_⟩
  intro s h1 h3 h6
  simp [period_to_gnews_period, h1, h3, h6]

/-- Witness for C7 at the concrete invalid label "2 Weeks". -/
theorem c7_period_resolution_witness : period_to_gnews_period "2 Weeks" = "1m" :=
  c7_period_resolution.2.2.2 "2 Weeks" (by decide) (by decide) (by decide)

/-- Claim C4: for every stock string, period label and max_results, when
the backend call (or anything inside the `try` block) raises with message
`e`, `fetch_news_for_stock` returns normally with the single
Article-shaped record whose title is "ERROR: " followed by the message
and whose url, publisher, published and description are the empty string.
(The Lean embedding is a total function, so the never-raises part is the
well-definedness of the equation for every input.) -/
theorem c4_fetch_error_sentinel (parse : String → Option String) (stock period_label : String)
    (max_results : Nat) (e : String) :
    fetch_news_for_stock parse stock period_label max_results (Except.error e)
      = [{ stock := stock, title := some ("ERROR: " ++ e), url := some "",
           publisher := some "", published := some "", description := some "" }] := rfl

/-- Claim C10: the published date is read from the raw "published date"
key, falling back to the "published" key when the former is missing or
falsy; and a falsy resulting value (missing, or the empty string) makes
the normalized `published` field `none` — in particular a raw
empty-string date is reported as absent. -/
theorem c10_published_fallback (parse : String → Option String) (stock : String) (item : RawItem) :
    ((item.published_date = none ∨ item.published_date = some "") →
        (normalizeItem parse stock item).published = normPublished parse item.published)
      ∧ (∀ s, item.published_date = some s → s ≠ "" →
          (normalizeItem parse stock item).published = normPublished parse (some s))
      ∧ ((pyOr item.published_date item.published = none
            ∨ pyOr item.published_date item.published = some "") →
          (normalizeItem parse stock item).published = none) := by
  refine ⟨?_, ?_, ?_⟩
  · rintro (h | h) <;> simp [normalizeItem, pyOr, h]
  · intro s hs hne
    simp [normalizeItem, pyOr, hs, hne]
  · rintro (h | h) <;> simp [normalizeItem, h, normPublished]

/-- Witness for C10: with "published date" present but empty, the
normalizer falls back to the "published" key; with both falsy the
normalized date is absent. -/
theorem c10_published_fallback_witness :
    (normalizeItem sampleDateParse "TCS"
        { title := some "t", url := none, publisher := none, description := none,
          published_date := some "", published := some "N/A" }).published
      = normPublished sampleDateParse (some "N/A")
      ∧ (normalizeItem sampleDateParse "TCS"
          { title := some "t", url := none, publisher := none, description := none,
            published_date := some "", published := none }).published = none :=
  ⟨(c10_published_fallback sampleDateParse "TCS" _).1 (Or.inr rfl),
   (c10_published_fallback sampleDateParse "TCS" _).2.2 (Or.inl rfl)⟩

/-- Counterexample to claim C5 as stated: the raw record
`emptyDateItem` provides the published-date string `""`; it is
unparseable (`sampleDateParse "" = none`), yet the normalized
`published` is `none` — the original string is NOT preserved verbatim
(FnO.py line 67 turns every falsy date into `None` before the parse is
even attempted). -/
theorem c5_date_empty_counterexample :
    sampleDateParse "" = none
      ∧ (normalizeItem sampleDateParse "TCS" emptyDateItem).published = none
      ∧ (normalizeItem sampleDateParse "TCS" emptyDateItem).published ≠ some "" := by
  refine ⟨by decide, by decide, by decide⟩

/-- Claim C5 as amended: for every raw record whose effective raw date
value is a non-empty string `s`, if `s` parses then `published` is the
parser's ISO-8601 rendering, and if it is unparseable then `s` is
preserved verbatim; an empty-string (falsy) raw date instead yields the
absent marker (see C10), and no exception escapes (the embedding is
total). -/
theorem c5_date_normalization_amended (parse : String → Option String) (stock : String)
    (item : RawItem) (s : String)
    (hs : pyOr item.published_date item.published = some s) (hne : s ≠ "") :
    (∀ iso, parse s = some iso → (normalizeItem parse stock item).published = some iso)
      ∧ (parse s = none → (normalizeItem parse stock item).published = some s) := by
  constructor
  · intro iso hp
    simp [normalizeItem, hs, normPublished, hne, hp]
  · intro hp
    simp [normalizeItem, hs, normPublished, hne, hp]

/-- Witness for amended C5: "March 5, 2024" is normalized to its ISO
rendering, and the unparseable "N/A" is preserved verbatim. -/
theorem c5_date_normalization_amended_witness :
    (normalizeItem sampleDateParse "TCS" marchItem).published = some "2024-03-05T00:00:00"
      ∧ (normalizeItem sampleDateParse "TCS" naItem).published = some "N/A" :=
  ⟨(c5_date_normalization_amended sampleDateParse "TCS" marchItem "March 5, 2024"
      rfl (by decide)).1 "2024-03-05T00:00:00" rfl,
   (c5_date_normalization_amended sampleDateParse "TCS" naItem "N/A"
      rfl (by decide)).2 rfl⟩

/-- Everything the dedup scan keeps was in its input. -/
theorem dropDupAux_subset (key : Article → Option String) :
    ∀ (l : List Article) (seen : List (Option String)) (a : Article),
      a ∈ dropDupAux key seen l → a ∈ l := by
  intro l
  induction l with
  | nil => intro seen a ha; simp [dropDupAux] at ha
  | cons x xs ih =>
    intro seen a ha
    by_cases hx : key x ∈ seen
    · simp only [dropDupAux, if_pos hx] at ha
      exact List.mem_cons_of_mem _ (ih seen a ha)
    · simp only [dropDupAux, if_neg hx] at ha
      rcases List.mem_cons.mp ha with rfl | h
      · exact List.mem_cons_self _ _
      · exact List.mem_cons_of_mem _ (ih _ a h)

/-- The dedup scan never emits a row whose key was already seen. -/
theorem dropDupAux_key_not_seen (key : Article → Option String) :
    ∀ (l : List Article) (seen : List (Option String)) (a : Article),
      a ∈ dropDupAux key seen l → key a ∉ seen := by
  intro l
  induction l with
  | nil => intro seen a ha; simp [dropDupAux] at ha
  | cons x xs ih =>
    intro seen a ha
    by_cases hx : key x ∈ seen
    · simp only [dropDupAux, if_pos hx] at ha
      exact ih seen a ha
    · simp only [dropDupAux, if_neg hx] at ha
      rcases List.mem_cons.mp ha with rfl | h
      · exact hx
      · intro hmem
        exact (ih _ a h) (List.mem_cons_of_mem _ hmem)

/-- The dedup scan emits pairwise-distinct key values. -/
theorem dropDupAux_pairwise (key : Article → Option String) :
    ∀ (l : List Article) (seen : List (Option String)),
      List.Pairwise (fun a b => key a ≠ key b) (dropDupAux key seen l) := by
  intro l
  induction l with
  | nil => intro seen; simp [dropDupAux]
  | cons x xs ih =>
    intro seen
    by_cases hx : key x ∈ seen
    · simp only [dropDupAux, if_pos hx]
      exact ih seen
    · simp only [dropDupAux, if_neg hx]
      refine List.Pairwise.cons ?_ (ih (key x :: seen))
      intro b hb he
      refine (dropDupAux_key_not_seen key xs (key x :: seen) b hb) ?_
      rw [← he]
      exact List.mem_cons_self _ _

/-- `find?` skips a head on which the predicate is false. -/
theorem find?_cons_false {p : Article → Bool} {x : Article} (xs : List Article)
    (h : p x = false) : (x :: xs).find? p = xs.find? p := by
  simp [List.find?_cons, h]

/-- `find?` returns a head on which the predicate is true. -/
theorem find?_cons_true {p : Article → Bool} {x : Article} (xs : List Article)
    (h : p x = true) : (x :: xs).find? p = some x := by
  simp [List.find?_cons, h]

/-- First-occurrence characterization of the dedup scan: among rows with
a given key value, exactly the first of the input survives (none if the
value was pre-seen). -/
theorem dropDupAux_filter (key : Article → Option String) (v : Option String) :
    ∀ (l : List Article) (seen : List (Option String)),
      (dropDupAux key seen l).filter (fun a => decide (key a = v))
        = if v ∈ seen then [] else (l.find? (fun a => decide (key a = v))).toList := by
  intro l
  induction l with
  | nil =>
    intro seen
    by_cases hv : v ∈ seen <;> simp [dropDupAux, hv]
  | cons x xs ih =>
    intro seen
    by_cases hx : key x ∈ seen
    · simp only [dropDupAux, if_pos hx]
      rw [ih seen]
      by_cases hv : v ∈ seen
      · simp [hv]
      · rw [if_neg hv, if_neg hv, find?_cons_false xs (by
          simp only [decide_eq_false_iff_not]
          intro he
          exact hv (he ▸ hx))]
    · simp only [dropDupAux, if_neg hx]
      by_cases hxv : key x = v
      · subst hxv
        rw [if_neg hx, List.filter_cons,
          if_pos (show (fun a => decide (key a = key x)) x = true by simp),
          ih (key x :: seen), if_pos (List.mem_cons_self _ _),
          find?_cons_true xs (by simp)]
        simp
      · have hdx : ¬ ((fun a => decide (key a = v)) x = true) := by simp [hxv]
        rw [List.filter_cons, if_neg hdx, ih (key x :: seen),
          find?_cons_false xs (by simp only [decide_eq_false_iff_not]; exact hxv)]
        by_cases hv : v ∈ seen
        · rw [if_pos hv, if_pos (List.mem_cons_of_mem _ hv)]
        · rw [if_neg hv, if_neg (by
            intro hmem
            rcases List.mem_cons.mp hmem with he | he
            · exact hxv he.symm
            · exact hv he)]

/-- Lists whose rows all lack a url are pairwise free of shared
non-absent urls. -/
theorem pairwise_of_url_none :
    ∀ (l : List Article), (∀ a ∈ l, a.url = none) →
      List.Pairwise (fun a b : Article => a.url = none ∨ b.url = none ∨ a.url ≠ b.url) l := by
  intro l
  induction l with
  | nil => intro _; exact List.Pairwise.nil
  | cons x xs ih =>
    intro h
    refine List.Pairwise.cons ?_ (ih fun a ha => h a (List.mem_cons_of_mem _ ha))
    intro b _
    exact Or.inl (h x (List.mem_cons_self _ _))

/-- Either dedup branch leaves no two rows sharing a non-absent url. -/
theorem dedupStep_pairwise_url (l : List Article) :
    List.Pairwise (fun a b : Article => a.url = none ∨ b.url = none ∨ a.url ≠ b.url)
      (dedupStep l) := by
  by_cases h : l.any (fun a => !a.url.isNone) = true
  · simp only [dedupStep, if_pos h, dropDuplicates]
    exact (dropDupAux_pairwise (fun a => a.url) l []).imp (fun hab => Or.inr (Or.inr hab))
  · simp only [dedupStep, if_neg h, dropDuplicates]
    refine pairwise_of_url_none _ ?_
    intro a ha
    have ha2 := dropDupAux_subset (fun a => a.title) l [] a ha
    by_contra hne
    apply h
    rw [List.any_eq_true]
    refine ⟨a, ha2, ?_⟩
    cases hau : a.url with
    | none => exact absurd hau hne
    | some u => simp

/-- Claim C2: no two rows of a displayed result share a non-absent url;
with the url branch active, among rows with a given url exactly the
first in fetch order survives (even when the titles differ); and when no
accumulated row has a url, deduplication is by title, again keeping the
first occurrence. -/
theorem c2_deduplication (parse : String → Option String) (toDT : String → Option Int)
    (period_label : String) (max_results : Nat) (selected : List String)
    (f : String → Except String (List RawItem)) :
    (∀ out, DisplayedResult parse toDT period_label max_results selected f out →
        List.Pairwise (fun a b : Article => a.url = none ∨ b.url = none ∨ a.url ≠ b.url) out)
      ∧ (∀ l : List Article, l.any (fun a => !a.url.isNone) = true → ∀ u : String,
          (dedupStep l).filter (fun a => decide (a.url = some u))
            = (l.find? (fun a => decide (a.url = some u))).toList)
      ∧ (∀ l : List Article, (∀ a ∈ l, a.url = none) → ∀ t : Option String,
          (dedupStep l).filter (fun a => decide (a.title = t))
            = (l.find? (fun a => decide (a.title = t))).toList) := by
  refine ⟨?_, ?_, ?_⟩
  · intro out hout
    refine List.Pairwise.perm (dedupStep_pairwise_url _) hout.1 ?_
    rintro x y (h | h | h)
    · exact Or.inr (Or.inl h)
    · exact Or.inl h
    · exact Or.inr (Or.inr (Ne.symm h))
  · intro l h u
    simp only [dedupStep, if_pos h, dropDuplicates]
    simpa using dropDupAux_filter (fun a => a.url) (some u) l []
  · intro l hall t
    have h : ¬ (l.any (fun a => !a.url.isNone) = true) := by
      intro hany
      rcases List.any_eq_true.mp hany with ⟨a, ha, hpa⟩
      rw [hall a ha] at hpa
      simp at hpa
    simp only [dedupStep, if_neg h, dropDuplicates]
    simpa using dropDupAux_filter (fun a => a.title) t l []

/-- Witness for C2: a two-record url collision keeps only the first; a
url-less accumulation dedups by title; and a concrete displayed result
has pairwise-distinct urls. -/
theorem c2_deduplication_witness :
    ((dedupStep [artTieA, artDupA, artUrlC]).filter
        (fun a => decide (a.url = some "https://news.example/p"))
      = ([artTieA, artDupA, artUrlC].find?
          (fun a => decide (a.url = some "https://news.example/p"))).toList)
      ∧ ((dedupStep [artNoUrl1, artNoUrl2, artNoUrl1]).filter
          (fun a => decide (a.title = some "no url one"))
        = ([artNoUrl1, artNoUrl2, artNoUrl1].find?
            (fun a => decide (a.title = some "no url one"))).toList)
      ∧ List.Pairwise (fun a b : Article => a.url = none ∨ b.url = none ∨ a.url ≠ b.url)
          [artTieA, artTieB] :=
  ⟨(c2_deduplication noParse noDT "1 Month" 30 [] fTie).2.1
      [artTieA, artDupA, artUrlC] (by decide) "https://news.example/p",
   (c2_deduplication noParse noDT "1 Month" 30 [] fTie).2.2
      [artNoUrl1, artNoUrl2, artNoUrl1] (by decide) (some "no url one"),
   (c2_deduplication sampleDateParse sampleToDT "1 Month" 30 ["TCS"] fTie).1
      [artTieA, artTieB] (by decide)⟩

/-- Claim C9: when the url dedup branch is active, url-absent rows are
mutual duplicates (pandas compares missing values equal), so at most one
survives — exactly the first url-less row of the accumulation, no matter
how many distinct url-less rows went in. -/
theorem c9_null_url_collapse (l : List Article)
    (h : l.any (fun a => !a.url.isNone) = true) :
    (dedupStep l).filter (fun a => decide (a.url = none))
        = (l.find? (fun a => decide (a.url = none))).toList
      ∧ ((dedupStep l).filter (fun a => decide (a.url = none))).length ≤ 1 := by
  have h1 : (dedupStep l).filter (fun a => decide (a.url = none))
      = (l.find? (fun a => decide (a.url = none))).toList := by
    simp only [dedupStep, if_pos h, dropDuplicates]
    simpa using dropDupAux_filter (fun a => a.url) none l []
  refine ⟨h1, ?_⟩
  rw [h1]
  cases l.find? (fun a => decide (a.url = none)) <;> simp

/-- Witness for C9: two distinct url-less rows collapse to the first. -/
theorem c9_null_url_collapse_witness :
    (dedupStep [artUrlC, artNoUrl1, artNoUrl2]).filter (fun a => decide (a.url = none))
      = ([artUrlC, artNoUrl1, artNoUrl2].find? (fun a => decide (a.url = none))).toList :=
  (c9_null_url_collapse [artUrlC, artNoUrl1, artNoUrl2] (by decide)).1

/-- `filterErrors` distributes over append. -/
theorem filterErrors_append (l1 l2 : List Article) :
    filterErrors (l1 ++ l2) = filterErrors l1 ++ filterErrors l2 :=
  List.filter_append _ _

/-- A failing fetch contributes nothing after the error-row filter. -/
theorem filterErrors_error_fetch (parse : String → Option String) (stock period_label : String)
    (max_results : Nat) (e : String) :
    filterErrors (fetch_news_for_stock parse stock period_label max_results
      (Except.error e)) = [] := by
  have herr : titleIsErr
      { stock := stock, title := some ("ERROR: " ++ e), url := some "",
        publisher := some "", published := some "", description := some "" } = true := by
    simp [titleIsErr, error_title_marker e]
  simp [fetch_news_for_stock, filterErrors, herr]

/-- Replacing a failing stock's backend outcome by an empty success does
not change the filtered accumulation. -/
theorem filterErrors_accum_patch (parse : String → Option String) (period_label : String)
    (max_results : Nat) (f : String → Except String (List RawItem)) (k e : String)
    (hk : f k = Except.error e) :
    ∀ selected, filterErrors (accumArticles parse period_label max_results f selected)
      = filterErrors (accumArticles parse period_label max_results
          (fun s => if s = k then Except.ok [] else f s) selected) := by
  intro selected
  induction selected with
  | nil => rfl
  | cons s rest ih =>
    simp only [accumArticles]
    rw [filterErrors_append, filterErrors_append, ih]
    congr 1
    by_cases hs : s = k
    · subst hs
      rw [hk, if_pos rfl, filterErrors_error_fetch]
      rfl
    · rw [if_neg hs]

/-- Claim C1: if stock `k`'s backend fetch raises (or returns data the
loop cannot process), the run is unchanged from the run in which `k`
simply returned no records: the filtered, deduplicated rows are equal,
and the possible displayed results coincide — the failing stock
contributes zero Articles because its ERROR-titled sentinel is filtered
out before deduplication and display, and nothing is raised (the
embedded run is a total function). -/
theorem c1_failure_isolation (parse : String → Option String) (toDT : String → Option Int)
    (period_label : String) (max_results : Nat) (selected : List String)
    (f : String → Except String (List RawItem)) (k e : String)
    (hk : f k = Except.error e) :
    resultArticles parse period_label max_results selected f
        = resultArticles parse period_label max_results selected
            (fun s => if s = k then Except.ok [] else f s)
      ∧ ∀ out, DisplayedResult parse toDT period_label max_results selected f out
          ↔ DisplayedResult parse toDT period_label max_results selected
              (fun s => if s = k then Except.ok [] else f s) out := by
  have h := filterErrors_accum_patch parse period_label max_results f k e hk selected
  have h1 : resultArticles parse period_label max_results selected f
      = resultArticles parse period_label max_results selected
          (fun s => if s = k then Except.ok [] else f s) := by
    unfold resultArticles
    rw [h]
  refine ⟨h1, fun out => ?_⟩
  rw [show DisplayedResult parse toDT period_label max_results selected f out
      = PandasSortResult toDT (resultArticles parse period_label max_results selected f) out
    from rfl, h1]

/-- Witness for C1 at a concrete two-stock run in which Infosys raises. -/
theorem c1_failure_isolation_witness :
    resultArticles sampleDateParse "1 Month" 30 ["TCS", "Infosys"] fBoom
      = resultArticles sampleDateParse "1 Month" 30 ["TCS", "Infosys"]
          (fun s => if s = "Infosys" then Except.ok [] else fBoom s) :=
  (c1_failure_isolation sampleDateParse sampleToDT "1 Month" 30 ["TCS", "Infosys"] fBoom
      "Infosys" "boom" (by simp [fBoom])).1

/-- Counterexample to claim C3 as stated: for the concrete run over
["TCS"] the pre-sort accumulation is [artTieA, artTieB] (equal
`published` timestamps, fetch order A then B), yet [artTieB, artTieA] is
a displayed result admitted by the sort call — `sort_values` with its
default kind='quicksort' is documented as not stable, so the relative
order of equal keys is not the pre-sort order. The claimed tie-stability
is therefore not a property of the code. -/
theorem c3_sort_tie_counterexample :
    resultArticles sampleDateParse "1 Month" 30 ["TCS"] fTie = [artTieA, artTieB]
      ∧ DisplayedResult sampleDateParse sampleToDT "1 Month" 30 ["TCS"] fTie
          [artTieB, artTieA]
      ∧ artTieA ≠ artTieB
      ∧ sortKey sampleToDT artTieA = sortKey sampleToDT artTieB := by
  refine ⟨by decide, ⟨?_, by decide⟩, by decide, by decide⟩
  have h : resultArticles sampleDateParse "1 Month" 30 ["TCS"] fTie
      = [artTieA, artTieB] := by decide
  rw [h]
  exact List.Perm.swap artTieB artTieA []

/-- Claim C3 as amended: every displayed result is a permutation of the
deduplicated accumulation, ordered descending by the parsed `published`
timestamp, with absent/unparseable timestamps after all valid ones; the
relative order of rows with equal `published` keys is not specified (the
sort uses pandas' default non-stable quicksort). -/
theorem c3_sort_amended (parse : String → Option String) (toDT : String → Option Int)
    (period_label : String) (max_results : Nat) (selected : List String)
    (f : String → Except String (List RawItem)) (out : List Article)
    (h : DisplayedResult parse toDT period_label max_results selected f out) :
    List.Perm (resultArticles parse period_label max_results selected f) out
      ∧ (∀ i j (hi : i < out.length) (hj : j < out.length), i < j →
          keyGE (sortKey toDT (out.get ⟨i, hi⟩)) (sortKey toDT (out.get ⟨j, hj⟩)) = true)
      ∧ (∀ i j (hi : i < out.length) (hj : j < out.length), i < j →
          sortKey toDT (out.get ⟨i, hi⟩) = none → sortKey toDT (out.get ⟨j, hj⟩) = none) := by
  refine ⟨h.1, ?_, ?_⟩
  · intro i j hi hj hij
    exact List.pairwise_iff_get.mp h.2 ⟨i, hi⟩ ⟨j, hj⟩ hij
  · intro i j hi hj hij hnone
    have hkg := List.pairwise_iff_get.mp h.2 ⟨i, hi⟩ ⟨j, hj⟩ hij
    rw [hnone] at hkg
    cases hsj : sortKey toDT (out.get ⟨j, hj⟩) with
    | none => rfl
    | some y =>
      rw [hsj] at hkg
      simp [keyGE] at hkg

/-- Witness for amended C3 at a concrete sorted run. -/
theorem c3_sort_amended_witness :
    List.Perm (resultArticles sampleDateParse "1 Month" 30 ["TCS"] fTie)
      [artTieA, artTieB] :=
  (c3_sort_amended sampleDateParse sampleToDT "1 Month" 30 ["TCS"] fTie
    [artTieA, artTieB] (by decide)).1

/-- The event trace has two events per selected stock. -/
theorem traceAux_length (parse : String → Option String) (period_label : String)
    (max_results N : Nat) (f : String → Except String (List RawItem)) :
    ∀ (l : List String) (i : Nat),
      (traceAux parse period_label max_results N f i l).length = 2 * l.length := by
  intro l
  induction l with
  | nil => intro i; rfl
  | cons s rest ih =>
    intro i
    simp only [traceAux, List.length_cons, ih (i + 1)]
    omega

/-- Event positions in the trace: the `j`-th stock's fetch completion is
at index `2j`, immediately followed by its single progress notification
with the 1-based index `i + j + 1` over the run total. -/
theorem traceAux_events (parse : String → Option String) (period_label : String)
    (max_results N : Nat) (f : String → Except String (List RawItem)) :
    ∀ (l : List String) (i j : Nat) (s : String), l.get? j = some s →
      ((traceAux parse period_label max_results N f i l).get? (2 * j)
          = some (UiEvent.fetchDone s
              (fetch_news_for_stock parse s period_label max_results (f s)))
        ∧ (traceAux parse period_label max_results N f i l).get? (2 * j + 1)
          = some (UiEvent.progressed (progressPercent (i + j + 1) N))) := by
  intro l
  induction l with
  | nil => intro i j s hj; simp at hj
  | cons x rest ih =>
    intro i j s hj
    cases j with
    | zero =>
      rw [List.get?_cons_zero] at hj
      cases hj
      exact ⟨rfl, rfl⟩
    | succ j2 =>
      rw [List.get?_cons_succ] at hj
      have h := ih (i + 1) j2 s hj
      have e1 : 2 * (j2 + 1) = 2 * j2 + 1 + 1 := by ring
      have e2 : 2 * (j2 + 1) + 1 = 2 * j2 + 1 + 1 + 1 := by ring
      have e3 : i + 1 + j2 + 1 = i + (j2 + 1) + 1 := by ring
      rw [e2, e1]
      simp only [traceAux, List.get?_cons_succ]
      rw [← e3]
      exact h

/-- Strict growth of the reported percentage while the total is at most
100 stocks (the app's selection is drawn from the 34-entry list). -/
theorem progressPercent_lt (N j : Nat) (hN : N ≤ 100) (hj : j + 2 ≤ N) :
    progressPercent (j + 1) N < progressPercent (j + 2) N := by
  have hN0 : 0 < N := by omega
  have h1 : (100 * (j + 1) + N) / N = 100 * (j + 1) / N + 1 := Nat.add_div_right _ hN0
  have h2 : (100 * (j + 1) + N) / N ≤ (100 * (j + 1) + 100) / N :=
    Nat.div_le_div_right (by omega)
  have h3 : 100 * (j + 2) = 100 * (j + 1) + 100 := by ring
  have h4 : 100 * (j + 1) / N + 1 ≤ (100 * (j + 1) + 100) / N := h1 ▸ h2
  show 100 * (j + 1) / N < 100 * (j + 2) / N
  rw [h3]
  exact Nat.lt_of_lt_of_le (Nat.lt_succ_self _) h4

/-- Claim C8: over a run on `N` selected stocks (a non-empty, duplicate
free selection drawn from the F&O list), the progress observer is
notified exactly once per stock, right after that stock's fetch
completes, carrying the percentage of the 1-based index over `N`; and
the reported values are strictly increasing (1/N up to N/N rendered as
integer percentages). -/
theorem c8_progress_reporting (parse : String → Option String) (period_label : String)
    (max_results : Nat) (selected : List String)
    (f : String → Except String (List RawItem)) (hne : selected ≠ [])
    (hnd : selected.Nodup) (hsub : ∀ s ∈ selected, s ∈ FNO_STOCKS) :
    (handlerTrace parse period_label max_results selected f).length = 2 * selected.length
      ∧ (∀ j s, selected.get? j = some s →
          (handlerTrace parse period_label max_results selected f).get? (2 * j)
              = some (UiEvent.fetchDone s
                  (fetch_news_for_stock parse s period_label max_results (f s)))
            ∧ (handlerTrace parse period_label max_results selected f).get? (2 * j + 1)
              = some (UiEvent.progressed (progressPercent (j + 1) selected.length)))
      ∧ (∀ j, j + 2 ≤ selected.length →
          progressPercent (j + 1) selected.length
            < progressPercent (j + 2) selected.length) := by
  refine ⟨traceAux_length parse period_label max_results selected.length f selected 0, ?_, ?_⟩
  · intro j s hj
    have h := traceAux_events parse period_label max_results selected.length f selected 0 j s hj
    simpa using h
  · intro j hj
    have hlen : selected.length ≤ FNO_STOCKS.length :=
      (List.subperm_of_subset hnd hsub).length_le
    have h34 : FNO_STOCKS.length = 34 := rfl
    exact progressPercent_lt selected.length j (by omega) hj

/-- Witness for C8 over the concrete selection ["TCS", "Infosys"]. -/
theorem c8_progress_reporting_witness :
    (handlerTrace sampleDateParse "1 Month" 30 ["TCS", "Infosys"] fTie).length = 2 * 2
      ∧ progressPercent 1 2 < progressPercent 2 2 := by
  have h := c8_progress_reporting sampleDateParse "1 Month" 30 ["TCS", "Infosys"] fTie
    (by decide) (by decide) (by decide)
  exact ⟨h.1, h.2.2 0 (by decide)⟩

/-- Reading the quoted body of an escaped field returns it verbatim. -/
theorem csvRun_quoted_body (rest : List Char) (cur : List (List Char))
    (recs : List (List (List Char))) :
    ∀ (f acc : List Char),
      csvRun (escQuotes f ++ '"' :: rest) CsvMode.quoted acc cur recs
        = csvRun rest CsvMode.closed (f.reverse ++ acc) cur recs := by
  intro f
  induction f with
  | nil => intro acc; simp [escQuotes, csvRun]
  | cons c cs ih =>
    intro acc
    by_cases hc : c = '"'
    · subst hc
      simp [escQuotes, csvRun, ih, List.append_assoc]
    · simp [escQuotes, csvRun, hc, ih, List.append_assoc]

/-- Reading an unquoted field body accumulates it verbatim. -/
theorem csvRun_plain_body (rest : List Char) (cur : List (List Char))
    (recs : List (List (List Char))) :
    ∀ (f acc : List Char), (∀ c ∈ f, specialChar c = false) →
      csvRun (f ++ rest) CsvMode.plain acc cur recs
        = csvRun rest CsvMode.plain (f.reverse ++ acc) cur recs := by
  intro f
  induction f with
  | nil => intro acc _; simp
  | cons c cs ih =>
    intro acc h
    have hc := h c (List.mem_cons_self c cs)
    simp only [specialChar, decide_eq_false_iff_not] at hc
    push_neg at hc
    obtain ⟨h1, h2, h3, _⟩ := hc
    simp [csvRun, h1, h2, h3, ih _ (fun d hd => h d (List.mem_cons_of_mem _ hd)),
      List.append_assoc]

/-- Any-false gives per-element falseness for `specialChar`. -/
theorem specialChar_all_false {f : List Char} (hq : ¬ (f.any specialChar = true)) :
    ∀ c ∈ f, specialChar c = false := by
  intro c hcf
  by_contra hcc
  refine hq (List.any_eq_true.mpr ⟨c, hcf, ?_⟩)
  revert hcc
  cases specialChar c <;> simp

/-- One escaped field followed by the delimiter: the field is recorded
and reading resumes at the next field. -/
theorem csvRun_field_comma (f rest : List Char) (cur : List (List Char))
    (recs : List (List (List Char))) :
    csvRun (escFieldChars f ++ ',' :: rest) CsvMode.plain [] cur recs
      = csvRun rest CsvMode.plain [] (f :: cur) recs := by
  by_cases hq : f.any specialChar = true
  · simp [escFieldChars, hq, csvRun, csvRun_quoted_body, List.append_assoc]
  · simp only [escFieldChars, if_neg hq]
    rw [csvRun_plain_body (',' :: rest) cur recs f [] (specialChar_all_false hq)]
    simp [csvRun]

/-- One escaped field followed by the line terminator: the record is
closed with the field as its last entry. -/
theorem csvRun_field_newline (f rest : List Char) (cur : List (List Char))
    (recs : List (List (List Char))) :
    csvRun (escFieldChars f ++ '\n' :: rest) CsvMode.plain [] cur recs
      = csvRun rest CsvMode.plain [] [] ((f :: cur).reverse :: recs) := by
  by_cases hq : f.any specialChar = true
  · simp [escFieldChars, hq, csvRun, csvRun_quoted_body, List.append_assoc]
  · simp only [escFieldChars, if_neg hq]
    rw [csvRun_plain_body ('\n' :: rest) cur recs f [] (specialChar_all_false hq)]
    simp [csvRun]

/-- Reading one written record appends exactly its fields. -/
theorem csvRun_line (rest : List Char) (recs : List (List (List Char))) :
    ∀ (fs : List (List Char)) (cur : List (List Char)), fs ≠ [] →
      csvRun (lineChars fs ++ '\n' :: rest) CsvMode.plain [] cur recs
        = csvRun rest CsvMode.plain [] [] ((cur.reverse ++ fs) :: recs) := by
  intro fs
  induction fs with
  | nil => intro cur h; exact absurd rfl h
  | cons f fs ih =>
    intro cur _
    cases fs with
    | nil =>
      rw [show lineChars [f] = escFieldChars f from rfl, csvRun_field_newline]
      simp
    | cons g t =>
      simp only [lineChars, List.append_assoc, List.cons_append]
      rw [csvRun_field_comma]
      rw [ih (f :: cur) (by simp)]
      simp [List.append_assoc]

/-- Reading a whole written document returns exactly its records. -/
theorem csvRun_records :
    ∀ (rows recs : List (List (List Char))), (∀ r ∈ rows, r ≠ []) →
      csvRun (csvChars rows) CsvMode.plain [] [] recs = some (recs.reverse ++ rows) := by
  intro rows
  induction rows with
  | nil => intro recs _; simp [csvChars, csvRun]
  | cons row rows ih =>
    intro recs h
    simp only [csvChars]
    rw [csvRun_line (csvChars rows) recs row [] (h row (List.mem_cons_self _ _))]
    simp only [List.reverse_nil, List.nil_append]
    rw [ih (row :: recs) (fun r hr => h r (List.mem_cons_of_mem _ hr))]
    simp [List.append_assoc]

/-- Counterexample to claim C6 as stated: the exported CSV's header row
is "stock,title,url,publisher,published,description" — the DataFrame's
column order (the record dicts' insertion order) — not the claimed
"stock,title,publisher,published,url,description". The latter is only
the display-table column selection of FnO.py line 154, which is not
assigned back to `df` before `df.to_csv` at line 157. -/
theorem c6_csv_column_order_counterexample :
    toCsvString [] = "stock,title,url,publisher,published,description\n"
      ∧ "stock,title,url,publisher,published,description\n"
          ≠ "stock,title,publisher,published,url,description\n" :=
  ⟨by decide, by decide⟩

/-- Claim C6 as amended: the exported bytes are the UTF-8 encoding of a
standard CSV document (QUOTE_MINIMAL quoting, doubled quotes, `\n`
terminator) that parses back to exactly a header row in the column order
stock, title, url, publisher, published, description followed by one row
per Article holding that Article's field values (absent rendered as the
empty field). -/
theorem c6_csv_amended (rs : List Article) :
    parseCsvString (toCsvString rs)
        = some ((csvHeader :: rs.map csvFields).map (fun row => row.map String.data))
      ∧ toCsvBytes rs = (toCsvString rs).toUTF8 := by
  constructor
  · have hne : ∀ r ∈ csvRows rs, r ≠ [] := by
      intro r hr
      simp only [csvRows, List.mem_map] at hr
      obtain ⟨row, hrow, hre⟩ := hr
      rcases List.mem_cons.mp hrow with rfl | hmem
      · rw [← hre]
        simp [csvHeader]
      · rcases List.mem_map.mp hmem with ⟨a, _, rfl⟩
        rw [← hre]
        simp [csvFields]
    show csvRun (String.mk (csvChars (csvRows rs))).data CsvMode.plain [] [] []
      = some ((csvHeader :: rs.map csvFields).map (fun row => row.map String.data))
    rw [show (String.mk (csvChars (csvRows rs))).data = csvChars (csvRows rs) from rfl,
      csvRun_records (csvRows rs) [] hne]
    simp [csvRows]
  · rfl
